import Mathlib

/-!
# Verification of the Bitrise build-option resolver

A shallow embedding of `src/bitrise/options.ts`: the option-resolution logic
that maps a GitHub event context plus user-supplied overrides to a Bitrise
build-options record.

Modelling conventions:
* JavaScript objects with optional keys become structures whose fields are
  `Option`-typed.  For the intermediate `Record<string, any>` values that
  participate in object spreads, a field is `Option (Option α)` when the
  source can set the key to a possibly-`undefined` value: the outer layer is
  key presence (spread takes the later object's key even when its value is
  `undefined`), the inner layer is the value itself.  In the final returned
  record the two layers are collapsed with `Option.join`, since an absent key
  and an `undefined` value are indistinguishable to the consumer.
* `core.setFailed` and `core.warning` do not stop execution in the source;
  they are modelled as message lists accumulated alongside the returned
  value (`RunResult.failed`, `RunResult.warnings`).  Each source function
  that calls `core.setFailed` is split into its value part and a `...Failed`
  message part, both mirroring the same control flow.
* `core.getInput` yields `""` for an unset input, and JS string truthiness
  is the test against `""`; boolean inputs are `Bool`.
* String primitives used by the source (`startsWith`, `slice`, `trim`,
  `split`) are modelled over `String.data` with structural list recursion.
-/

/-- JS `s.startsWith(p)`. -/
def jsStartsWith (s p : String) : Bool :=
  List.isPrefixOf p.data s.data

/-- JS `s.slice(n)` for a nonnegative `n`. -/
def jsDrop (n : Nat) (s : String) : String :=
  String.mk (s.data.drop n)

/-- Character-level whitespace test used by JS `trim`. -/
def isWhitespaceChar (c : Char) : Bool :=
  c = ' ' ∨ c = '\t' ∨ c = '\n' ∨ c = '\r'

/-- JS `s.trim()`. -/
def strTrim (s : String) : String :=
  String.mk (((s.data.dropWhile isWhitespaceChar).reverse.dropWhile isWhitespaceChar).reverse)

/-- Split a character list at every character satisfying `sep`
(JS `String.split` keeps empty segments). -/
def splitCharsOn (sep : Char → Bool) : List Char → List (List Char)
  | [] => [[]]
  | c :: cs =>
    let r := splitCharsOn sep cs
    if sep c then [] :: r
    else
      match r with
      | [] => [[c]]
      | h :: t => (c :: h) :: t

/-- JS `s.split(",")`. -/
def splitOnComma (s : String) : List String :=
  (splitCharsOn (fun c => c = ',') s.data).map String.mk

/-- JS truthiness of a possibly-`undefined` string value. -/
def truthyString (x : Option String) : Bool :=
  match x with
  | some s => decide (s ≠ "")
  | none => false

/-! ## Event-context data model (inputs to the resolver) -/

structure OwnerInfo where
  login : String
deriving DecidableEq

structure RepoInfo where
  «private» : Bool
  ssh_url : String
  clone_url : String
  owner : Option OwnerInfo
deriving DecidableEq

/-- One commit of a push payload (`payload.commits[i]` / `payload.head_commit`). -/
structure CommitInfo where
  message : String
  added : List String
  removed : List String
  modified : List String
deriving DecidableEq

/-- `pr.head` / `pr.base` of a pull-request payload. -/
structure PrSide where
  ref : String
  sha : String
  repo : Option RepoInfo
deriving DecidableEq

structure PullRequest where
  number : Nat
  title : String
  body : String
  mergeable : Option Bool
  draft : Bool
  action : String
  head : Option PrSide
  base : Option PrSide
  user : Option OwnerInfo
  diff_url : String
deriving DecidableEq

structure Payload where
  deleted : Bool
  commits : Option (List CommitInfo)
  head_commit : Option CommitInfo
  repository : Option RepoInfo
  pull_request : Option PullRequest
deriving DecidableEq

/-- The parts of `github.context` the resolver reads. -/
structure GithubContext where
  ref : String
  sha : String
  payload : Option Payload
deriving DecidableEq

/-- The action inputs read through `core.getInput` / `core.getBooleanInput`;
a string input is `""` when not provided. -/
structure ActionInputs where
  bitrise_workflow : String := ""
  bitrise_pipeline : String := ""
  listen : Bool := false
  branch_override : String := ""
  commit_override : String := ""
  skip_git_status_report : Bool := false
  env_vars_for_bitrise : String := ""
deriving DecidableEq

structure BitriseAppDetails where
  repo_url : String
deriving DecidableEq

structure BitriseEnvironment where
  mapped_to : String
  value : String
  is_expand : Bool
deriving DecidableEq

structure CommitPathsFilter where
  added : List String
  removed : List String
  modified : List String
deriving DecidableEq

/-! ## The intermediate `Record<string, any>` options objects -/

/-- The intermediate options record built by the transforms.  Outer `Option` =
key presence; for string-valued keys the inner `Option` = the (possibly
`undefined`) value, see the header comment. -/
@[ext]
structure OptionsRecord where
  branch : Option (Option String) := none
  tag : Option (Option String) := none
  commit_hash : Option (Option String) := none
  commit_message : Option (Option String) := none
  commit_messages : Option (List String) := none
  commit_paths : Option (List CommitPathsFilter) := none
  base_repository_url : Option (Option String) := none
  head_repository_url : Option (Option String) := none
  pull_request_repository_url : Option (Option String) := none
  branch_repo_owner : Option (Option String) := none
  branch_dest : Option (Option String) := none
  branch_dest_repo_owner : Option (Option String) := none
  pull_request_id : Option Nat := none
  pull_request_head_branch : Option String := none
  pull_request_unverified_merge_branch : Option String := none
  pull_request_merge_branch : Option String := none
  pull_request_author : Option (Option String) := none
  diff_url : Option String := none
  pull_request_ready_state : Option String := none
deriving DecidableEq

/-- JS object spread `{...a, ...b}`: a key of the result comes from `b`
when `b` has the key (even with an `undefined` value), else from `a`. -/
def spread (a b : OptionsRecord) : OptionsRecord where
  branch := b.branch <|> a.branch
  tag := b.tag <|> a.tag
  commit_hash := b.commit_hash <|> a.commit_hash
  commit_message := b.commit_message <|> a.commit_message
  commit_messages := b.commit_messages <|> a.commit_messages
  commit_paths := b.commit_paths <|> a.commit_paths
  base_repository_url := b.base_repository_url <|> a.base_repository_url
  head_repository_url := b.head_repository_url <|> a.head_repository_url
  pull_request_repository_url := b.pull_request_repository_url <|> a.pull_request_repository_url
  branch_repo_owner := b.branch_repo_owner <|> a.branch_repo_owner
  branch_dest := b.branch_dest <|> a.branch_dest
  branch_dest_repo_owner := b.branch_dest_repo_owner <|> a.branch_dest_repo_owner
  pull_request_id := b.pull_request_id <|> a.pull_request_id
  pull_request_head_branch := b.pull_request_head_branch <|> a.pull_request_head_branch
  pull_request_unverified_merge_branch :=
    b.pull_request_unverified_merge_branch <|> a.pull_request_unverified_merge_branch
  pull_request_merge_branch := b.pull_request_merge_branch <|> a.pull_request_merge_branch
  pull_request_author := b.pull_request_author <|> a.pull_request_author
  diff_url := b.diff_url <|> a.diff_url
  pull_request_ready_state := b.pull_request_ready_state <|> a.pull_request_ready_state

/-! ## The returned `BitriseBuildOptions` record -/

/-- The record `createBuildOptions` returns.  Fields of the intermediate
record are collapsed to a single `Option` layer (absent key ≡ `undefined`). -/
structure BitriseBuildOptions where
  branch : Option String := none
  tag : Option String := none
  commit_hash : Option String := none
  commit_message : Option String := none
  commit_messages : Option (List String) := none
  commit_paths : Option (List CommitPathsFilter) := none
  base_repository_url : Option String := none
  head_repository_url : Option String := none
  pull_request_repository_url : Option String := none
  branch_repo_owner : Option String := none
  branch_dest : Option String := none
  branch_dest_repo_owner : Option String := none
  pull_request_id : Option Nat := none
  pull_request_head_branch : Option String := none
  pull_request_unverified_merge_branch : Option String := none
  pull_request_merge_branch : Option String := none
  pull_request_author : Option String := none
  diff_url : Option String := none
  pull_request_ready_state : Option String := none
  workflow_id : Option String := none
  pipeline_id : Option String := none
  skip_git_status_report : Option Bool := none
  environments : Option (List BitriseEnvironment) := none
deriving DecidableEq

/-- Collapse the two `Option` layers of the intermediate record into the
returned record's single layer. -/
def finalizeOptions (o : OptionsRecord) : BitriseBuildOptions where
  branch := o.branch.join
  tag := o.tag.join
  commit_hash := o.commit_hash.join
  commit_message := o.commit_message.join
  commit_messages := o.commit_messages
  commit_paths := o.commit_paths
  base_repository_url := o.base_repository_url.join
  head_repository_url := o.head_repository_url.join
  pull_request_repository_url := o.pull_request_repository_url.join
  branch_repo_owner := o.branch_repo_owner.join
  branch_dest := o.branch_dest.join
  branch_dest_repo_owner := o.branch_dest_repo_owner.join
  pull_request_id := o.pull_request_id
  pull_request_head_branch := o.pull_request_head_branch
  pull_request_unverified_merge_branch := o.pull_request_unverified_merge_branch
  pull_request_merge_branch := o.pull_request_merge_branch
  pull_request_author := o.pull_request_author.join
  diff_url := o.diff_url
  pull_request_ready_state := o.pull_request_ready_state

/-- The final merge `{...options, workflow_id, pipeline_id,
skip_git_status_report, environments}` at the end of `createBuildOptions`
(`workflow || undefined` maps `""` to an absent field). -/
def finishOptions (o : OptionsRecord) (workflow pipeline : String)
    (skip : Bool) (envs : List BitriseEnvironment) : BitriseBuildOptions :=
  { finalizeOptions o with
    workflow_id := if workflow ≠ "" then some workflow else none
    pipeline_id := if pipeline ≠ "" then some pipeline else none
    skip_git_status_report := some skip
    environments := some envs }

/-- The result of one `createBuildOptions` invocation: the returned record
plus the `core.setFailed` and `core.warning` messages emitted on the way. -/
structure RunResult where
  failed : List String
  warnings : List String
  options : BitriseBuildOptions
deriving DecidableEq

/-! ## Repository-URL selection and identity -/

/-- `getRepositoryURL`: SSH clone URL for a private repository, HTTPS clone
URL otherwise, `undefined` for an absent descriptor. -/
def getRepositoryURL (repoInfoModel : Option RepoInfo) : Option String :=
  match repoInfoModel with
  | none => none
  | some m => if m.«private» then some m.ssh_url else some m.clone_url

/-- Lowercase one character (ASCII, as JS `toLowerCase` on URL text). -/
def lowerChar (c : Char) : Char := c.toLower

/-- Drop a trailing `.git` from a URL's character list. -/
def dropDotGitSuffix (l : List Char) : List Char :=
  if List.isSuffixOf (String.data ".git") l then l.take (l.length - 4) else l

/-- Split URL text at `/` and `:` separators. -/
def splitUrlChars : List Char → List (List Char)
  | [] => [[]]
  | c :: cs =>
    let r := splitUrlChars cs
    if c = '/' ∨ c = ':' then [] :: r
    else
      match r with
      | [] => [[c]]
      | h :: t => (c :: h) :: t

/-- The normalized `owner/name` identity of a repository URL: lowercase,
drop a trailing `.git`, and keep the last two non-empty path components. -/
def repoIdentity (url : String) : List (List Char) :=
  let l := dropDotGitSuffix (url.data.map lowerChar)
  match ((splitUrlChars l).filter (fun x => decide (x ≠ []))).reverse with
  | name :: owner :: _ => [owner, name]
  | r => r

/-- Modelled from the spec: `urlsReferTheSameGitHubRepo` is imported from
`src/utils.ts`, which is not among the provided sources.  Per §4.2 of the
spec, two repository URLs refer to the same remote iff their normalized
`owner/name` path component matches, independent of transport scheme, host
casing and a trailing `.git` suffix; an absent second URL matches nothing. -/
def urlsReferTheSameGitHubRepo (urlA : String) (urlB : Option String) : Bool :=
  match urlB with
  | none => false
  | some b => decide (repoIdentity urlA = repoIdentity b)

/-! ## Environment passthrough -/

/-- The allow-list parsed from the `env-vars-for-bitrise` input:
split on commas, trim, drop empty names. -/
def envAllowList (raw : String) : List String :=
  ((splitOnComma raw).map strTrim).filter (fun i => decide (i ≠ ""))

/-- `prepareEnvironmentVariables`: keep the process-environment entries whose
name is allow-listed (in the environment's own encounter order), defaulting
an unset value to `""`, with the expand flag always `false`. -/
def prepareEnvironmentVariables (raw : String)
    (env : List (String × Option String)) : List BitriseEnvironment :=
  let envPassThrough := envAllowList raw
  (env.filter (fun kv => envPassThrough.contains kv.1)).map
    (fun kv => ⟨kv.1, kv.2.getD "", false⟩)

/-! ## Base-event transform -/

/-- The value part of `transformBasicEvent` (its `core.setFailed` message on
a deleted event is `transformBasicEventFailed`; the source returns `{}`
there and continues in the caller). -/
def transformBasicEvent (ctx : GithubContext) (payload : Payload) : OptionsRecord :=
  if payload.deleted then {}
  else
    let commits :=
      match payload.commits with
      | some l => l
      | none => match payload.head_commit with
                | some c => [c]
                | none => []
    let ref := ctx.ref
    let options : OptionsRecord :=
      if jsStartsWith ref "refs/heads/" then { branch := some (some (jsDrop 11 ref)) }
      else if jsStartsWith ref "refs/tags/" then { tag := some (some (jsDrop 10 ref)) }
      else {}
    let commitMessages : List String :=
      if jsStartsWith ref "refs/heads/" then commits.map (fun c => c.message) else []
    let commitPaths : List CommitPathsFilter :=
      if jsStartsWith ref "refs/heads/" then
        commits.map (fun c => ⟨c.added, c.removed, c.modified⟩)
      else []
    spread options
      { commit_hash := some (some ctx.sha)
        commit_message := some (payload.head_commit.map (fun c => c.message))
        commit_messages := some commitMessages
        commit_paths := some commitPaths
        base_repository_url := some (getRepositoryURL payload.repository) }

/-- The `core.setFailed` messages of `transformBasicEvent`. -/
def transformBasicEventFailed (payload : Payload) : List String :=
  if payload.deleted then ["this is a Deleted event, no build can be started"] else []

/-! ## Pull-request transform -/

/-- `getPrReadyState`. -/
def getPrReadyState (pr : PullRequest) : String :=
  if pr.action = "ready_for_review" then "converted_to_ready_for_review"
  else if pr.draft then "draft"
  else "ready_for_review"

/-- The value part of `transformPullRequestEvent` (its `core.setFailed`
message for an unmergeable PR is `transformPullRequestEventFailed`; the
source returns `{}` there and continues in the caller). -/
def transformPullRequestEvent (pr : PullRequest) : OptionsRecord :=
  let prNumber := pr.number
  let options1 : OptionsRecord :=
    { pull_request_unverified_merge_branch :=
        some ("pull/" ++ toString prNumber ++ "/merge") }
  let mergeRefUpToDate := pr.mergeable.isSome
  let options2 :=
    if mergeRefUpToDate then
      { options1 with
        pull_request_merge_branch := options1.pull_request_unverified_merge_branch }
    else options1
  if mergeRefUpToDate ∧ pr.mergeable = some false then {}
  else
    let commitMsg :=
      if pr.body ≠ "" then pr.title ++ "\n\n" ++ pr.body else pr.title
    spread options2
      { commit_hash := some (pr.head.map (fun h => h.sha))
        commit_message := some (some commitMsg)
        branch := some (pr.head.map (fun h => h.ref))
        branch_repo_owner :=
          some (((pr.head.bind (fun h => h.repo)).bind (fun r => r.owner)).map
            (fun o => o.login))
        branch_dest := some (pr.base.map (fun b => b.ref))
        branch_dest_repo_owner :=
          some (((pr.base.bind (fun b => b.repo)).bind (fun r => r.owner)).map
            (fun o => o.login))
        pull_request_id := some prNumber
        head_repository_url := some (getRepositoryURL (pr.head.bind (fun h => h.repo)))
        pull_request_repository_url :=
          some (getRepositoryURL (pr.head.bind (fun h => h.repo)))
        base_repository_url := some (getRepositoryURL (pr.base.bind (fun b => b.repo)))
        pull_request_head_branch := some ("pull/" ++ toString prNumber ++ "/head")
        pull_request_author := some (pr.user.map (fun u => u.login))
        diff_url := some pr.diff_url
        pull_request_ready_state := some (getPrReadyState pr) }

/-- The `core.setFailed` messages of `transformPullRequestEvent`. -/
def transformPullRequestEventFailed (pr : PullRequest) : List String :=
  if pr.mergeable.isSome ∧ pr.mergeable = some false then
    ["Pull Request is not mergeable"]
  else []

/-! ## Override transform (`processOverrides`) -/

/-- Truthy `appDetails?.repo_url`. -/
def appRepoUrl (appDetails : Option BitriseAppDetails) : Option String :=
  match appDetails with
  | none => none
  | some d => if d.repo_url = "" then none else some d.repo_url

/-- Stage 1 of `processOverrides`: seed with the known app repository URL
when available. -/
def overrideSeed (appDetails : Option BitriseAppDetails) : OptionsRecord :=
  match appRepoUrl appDetails with
  | some u => { base_repository_url := some (some u) }
  | none => {}

/-- Stage 2 of `processOverrides`: parse the branch-or-ref override. -/
def overrideParse (branchOverride : String) (b : OptionsRecord) : OptionsRecord :=
  if jsStartsWith branchOverride "refs/heads/" then
    { b with branch := some (some (jsDrop 11 branchOverride)) }
  else if jsStartsWith branchOverride "refs/tags/" then
    { b with tag := some (some (jsDrop 10 branchOverride)) }
  else if branchOverride ≠ "" then
    { b with branch := some (some branchOverride) }
  else b

/-- Stage 3 of `processOverrides`: when the override names the same branch or
tag as the base event and the app repository URL is the same remote, adopt
the full base-event options via the spread `{...branchOptions,
...defaultBranchOptions}`. -/
def overrideCollapse (appDetails : Option BitriseAppDetails)
    (defaultBranchOptions : Option OptionsRecord) (branchOverride : String)
    (b : OptionsRecord) : OptionsRecord :=
  if branchOverride ≠ "" ∧
      ((truthyString b.branch.join ∧
          b.branch.join = defaultBranchOptions.bind (fun d => d.branch.join)) ∨
        (truthyString b.tag.join ∧
          b.tag.join = defaultBranchOptions.bind (fun d => d.tag.join))) then
    match appRepoUrl appDetails with
    | some u =>
      if urlsReferTheSameGitHubRepo u
          (defaultBranchOptions.bind (fun d => d.base_repository_url.join)) then
        spread b (defaultBranchOptions.getD {})
      else b
    | none => b
  else b

/-- Stage 4 of `processOverrides`: a commit override that differs from the
base event's commit hash narrows the result to branch, tag, the override
hash and the base repository URL. -/
def overrideNarrow (commitOverride : String)
    (defaultBranchOptions : Option OptionsRecord) (b : OptionsRecord) : OptionsRecord :=
  if commitOverride ≠ "" ∧
      some commitOverride ≠ defaultBranchOptions.bind (fun d => d.commit_hash.join) then
    { branch := some b.branch.join
      tag := some b.tag.join
      commit_hash := some (some commitOverride)
      base_repository_url := some b.base_repository_url.join }
  else b

/-- `processOverrides`: the four sequential stages of the source function. -/
def processOverrides (appDetails : Option BitriseAppDetails)
    (defaultBranchOptions : Option OptionsRecord)
    (branchOverride commitOverride : String) : OptionsRecord :=
  overrideNarrow commitOverride defaultBranchOptions
    (overrideCollapse appDetails defaultBranchOptions branchOverride
      (overrideParse branchOverride (overrideSeed appDetails)))

/-- The `core.warning` message of `processOverrides` (emitted when no app
details are available). -/
def processOverridesWarnings (appDetails : Option BitriseAppDetails) : List String :=
  match appDetails with
  | none => ["It is recommended to use \"bitrise-token\" with overrides options."]
  | some _ => []

/-- The repository-mismatch `core.warning` of `createBuildOptions`. -/
def mismatchWarning (appDetails : Option BitriseAppDetails)
    (options : OptionsRecord) : List String :=
  match appRepoUrl appDetails with
  | some u =>
    if urlsReferTheSameGitHubRepo u options.base_repository_url.join then []
    else ["Bitrise App repository url does not match current repository url"]
  | none => []

/-! ## `createBuildOptions` -/

/-- `createBuildOptions`, with the action inputs, the GitHub context, the
known app details and the process environment made explicit.  The returned
`RunResult` carries the returned record together with the `core.setFailed`
and `core.warning` messages of the invocation. -/
def createBuildOptions (inputs : ActionInputs) (ctx : GithubContext)
    (appDetails : Option BitriseAppDetails)
    (env : List (String × Option String)) : RunResult :=
  let workflow := inputs.bitrise_workflow
  let pipeline := inputs.bitrise_pipeline
  let listen := inputs.listen
  if workflow = "" ∧ pipeline = "" then
    ⟨["Either bitrise-workflow or bitrise-pipeline must be provided"], [], {}⟩
  else if workflow ≠ "" ∧ pipeline ≠ "" then
    ⟨["Cannot specify both bitrise-workflow and bitrise-pipeline"], [], {}⟩
  else if pipeline ≠ "" ∧ listen then
    ⟨["Listen option is not supported with bitrise-pipeline"], [], {}⟩
  else
    let environments := prepareEnvironmentVariables inputs.env_vars_for_bitrise env
    let defaultBranchOptions : Option OptionsRecord :=
      ctx.payload.map (transformBasicEvent ctx)
    let basicFailed : List String :=
      match ctx.payload with
      | some p => transformBasicEventFailed p
      | none => []
    let branchOverride := inputs.branch_override
    let commitOverride := inputs.commit_override
    if branchOverride ≠ "" ∨ commitOverride ≠ "" then
      let options :=
        processOverrides appDetails defaultBranchOptions branchOverride commitOverride
      ⟨basicFailed,
        processOverridesWarnings appDetails ++ mismatchWarning appDetails options,
        finishOptions options workflow pipeline inputs.skip_git_status_report environments⟩
    else
      match ctx.payload.bind (fun p => p.pull_request) with
      | some pr =>
        let options := transformPullRequestEvent pr
        let environments1 :=
          if pr.draft then environments ++ [⟨"GITHUB_PR_IS_DRAFT", "true", false⟩]
          else environments
        ⟨basicFailed ++ transformPullRequestEventFailed pr,
          mismatchWarning appDetails options,
          finishOptions options workflow pipeline inputs.skip_git_status_report environments1⟩
      | none =>
        match defaultBranchOptions with
        | none => ⟨basicFailed ++ ["No payload found in the context."], [], {}⟩
        | some d =>
          ⟨basicFailed, mismatchWarning appDetails d,
            finishOptions d workflow pipeline inputs.skip_git_status_report environments⟩

/-! ## Concrete fixtures used in witnesses and counterexamples -/

def sampleCommit : CommitInfo :=
  { message := "m1", added := ["a.txt"], removed := [], modified := ["b.txt"] }

def sampleRepo : RepoInfo :=
  { «private» := false, ssh_url := "git@github.com:o/r.git",
    clone_url := "https://github.com/o/r.git", owner := some { login := "o" } }

def samplePushPayload : Payload :=
  { deleted := false, commits := some [sampleCommit], head_commit := some sampleCommit,
    repository := some sampleRepo, pull_request := none }

def samplePushCtx : GithubContext :=
  { ref := "refs/heads/main", sha := "abc", payload := some samplePushPayload }

def sampleDeletedPayload : Payload :=
  { deleted := true, commits := none, head_commit := none,
    repository := none, pull_request := none }

def sampleDeletedCtx : GithubContext :=
  { ref := "refs/heads/main", sha := "abc", payload := some sampleDeletedPayload }

def sampleTagCtx : GithubContext :=
  { ref := "refs/tags/v1.0", sha := "abc", payload := some samplePushPayload }

def inputWorkflowOnly : ActionInputs := { bitrise_workflow := "wf" }

def samplePr (m : Option Bool) : PullRequest :=
  { number := 7, title := "t", body := "", mergeable := m, draft := false,
    action := "opened",
    head := some { ref := "feat", sha := "h1", repo := some sampleRepo },
    base := some { ref := "main", sha := "b1", repo := some sampleRepo },
    user := some { login := "alice" }, diff_url := "d" }

def samplePrPayload (m : Option Bool) : Payload :=
  { deleted := false, commits := none, head_commit := none,
    repository := some sampleRepo, pull_request := some (samplePr m) }

def samplePrCtx (m : Option Bool) : GithubContext :=
  { ref := "refs/pull/7/merge", sha := "h1", payload := some (samplePrPayload m) }

def sampleApp : BitriseAppDetails := { repo_url := "https://github.com/o/r" }

def sampleEnv : List (String × Option String) := [("A", some "1"), ("B", some "2")]

/-- No pull-request-specific field of the intermediate record is present. -/
def noPullFields (o : OptionsRecord) : Prop :=
  o.head_repository_url = none ∧ o.pull_request_repository_url = none
  ∧ o.branch_repo_owner = none ∧ o.branch_dest = none
  ∧ o.branch_dest_repo_owner = none ∧ o.pull_request_id = none
  ∧ o.pull_request_head_branch = none
  ∧ o.pull_request_unverified_merge_branch = none
  ∧ o.pull_request_merge_branch = none ∧ o.pull_request_author = none
  ∧ o.diff_url = none ∧ o.pull_request_ready_state = none

/-- Replace a context's payload by one carrying the given pull request
(used to state claims about the pull-request path). -/
def withPullRequest (ctx : GithubContext) (p : Payload) (pr : PullRequest) : GithubContext :=
  { ctx with payload := some { p with pull_request := some pr } }

/-! ## Helper lemmas about the string primitives -/

theorem isPrefixOf_self_append (l t : List Char) : List.isPrefixOf l (l ++ t) = true := by
  induction l with
  | nil => simp
  | cons c cs ih => simp [List.cons_append, List.isPrefixOf_cons₂, ih]

theorem jsStartsWith_append (p s : String) : jsStartsWith (p ++ s) p = true := by
  unfold jsStartsWith
  rw [String.data_append]
  exact isPrefixOf_self_append _ _

theorem stringMk_data (s : String) : String.mk s.data = s := rfl

theorem jsDrop_append (p s : String) : jsDrop p.data.length (p ++ s) = s := by
  unfold jsDrop
  rw [String.data_append, List.drop_left, stringMk_data]

theorem jsDrop_heads (b : String) : jsDrop 11 ("refs/heads/" ++ b) = b := by
  have h : ("refs/heads/" : String).data.length = 11 := rfl
  rw [← h]
  exact jsDrop_append _ _

theorem jsDrop_tags (t : String) : jsDrop 10 ("refs/tags/" ++ t) = t := by
  have h : ("refs/tags/" : String).data.length = 10 := rfl
  rw [← h]
  exact jsDrop_append _ _

theorem heads_not_starts_tags (t : String) :
    jsStartsWith ("refs/tags/" ++ t) "refs/heads/" = false := by
  unfold jsStartsWith
  rw [String.data_append]
  have hft : ('h' == 't') = false := rfl
  show List.isPrefixOf
      ('r' :: 'e' :: 'f' :: 's' :: '/' :: 'h' :: 'e' :: 'a' :: 'd' :: 's' :: '/' :: [])
      (('r' :: 'e' :: 'f' :: 's' :: '/' :: 't' :: 'a' :: 'g' :: 's' :: '/' :: []) ++ t.data) = false
  simp [List.cons_append, List.isPrefixOf_cons₂, hft]

/-! ## C1 -/

/-- C1: the claim says a `ConfigError` (in particular a deleted-ref event, or
a pull request with `mergeable` explicitly `false`) terminates resolution and
emits no `BuildOptions`.  The code instead records the `core.setFailed`
message and continues: the final field merge still contributes
`workflow_id`, `skip_git_status_report` and `environments`, so a non-empty
record is returned.  This theorem evaluates the embedded code at both
failing inputs. -/
theorem c1_config_error_does_not_abort :
    ((createBuildOptions inputWorkflowOnly sampleDeletedCtx none []).failed =
        ["this is a Deleted event, no build can be started"]
      ∧ (createBuildOptions inputWorkflowOnly sampleDeletedCtx none []).options.workflow_id =
        some "wf"
      ∧ (createBuildOptions inputWorkflowOnly sampleDeletedCtx none []).options.skip_git_status_report =
        some false
      ∧ (createBuildOptions inputWorkflowOnly sampleDeletedCtx none []).options.environments =
        some []
      ∧ (createBuildOptions inputWorkflowOnly sampleDeletedCtx none []).options ≠ {})
    ∧ ((createBuildOptions inputWorkflowOnly (samplePrCtx (some false)) none []).failed =
        ["Pull Request is not mergeable"]
      ∧ (createBuildOptions inputWorkflowOnly (samplePrCtx (some false)) none []).options.workflow_id =
        some "wf"
      ∧ (createBuildOptions inputWorkflowOnly (samplePrCtx (some false)) none []).options.pull_request_unverified_merge_branch =
        none
      ∧ (createBuildOptions inputWorkflowOnly (samplePrCtx (some false)) none []).options ≠ {}) := by
  decide

/-! ## C4 -/

/-- C4: with a commit override supplied, if it differs from the base event's
commit hash the override result is narrowed to exactly `branch`, `tag`,
`commit_hash` (the override value) and `base_repository_url`, all other
fields discarded; if it equals the base commit hash the narrowing is not
applied and the result is whatever the earlier stages produced. -/
theorem c4_commit_override_narrowing (appDetails : Option BitriseAppDetails)
    (dflt : Option OptionsRecord) (bo co : String) (hco : co ≠ "") :
    (some co ≠ dflt.bind (fun d => d.commit_hash.join) →
      processOverrides appDetails dflt bo co =
        { branch := some ((overrideCollapse appDetails dflt bo
              (overrideParse bo (overrideSeed appDetails))).branch.join)
          tag := some ((overrideCollapse appDetails dflt bo
              (overrideParse bo (overrideSeed appDetails))).tag.join)
          commit_hash := some (some co)
          base_repository_url := some ((overrideCollapse appDetails dflt bo
              (overrideParse bo (overrideSeed appDetails))).base_repository_url.join) })
    ∧ (some co = dflt.bind (fun d => d.commit_hash.join) →
      processOverrides appDetails dflt bo co =
        overrideCollapse appDetails dflt bo (overrideParse bo (overrideSeed appDetails))) := by
  constructor
  · intro h
    unfold processOverrides overrideNarrow
    rw [if_pos ⟨hco, h⟩]
  · intro h
    unfold processOverrides overrideNarrow
    rw [if_neg]
    intro hcontra
    exact hcontra.2 h

/-- Witness for C4 at concrete inputs: a differing override narrows, an
equal override leaves the earlier stages' result untouched. -/
theorem c4_commit_override_narrowing_witness :
    processOverrides none (some { commit_hash := some (some "abc") }) "" "x" =
      { branch := some none, tag := some none, commit_hash := some (some "x"),
        base_repository_url := some none }
    ∧ processOverrides none (some { commit_hash := some (some "abc") }) "" "abc" =
      overrideCollapse none (some { commit_hash := some (some "abc") }) ""
        (overrideParse "" (overrideSeed none)) := by
  constructor
  · exact ((c4_commit_override_narrowing none
      (some { commit_hash := some (some "abc") }) "" "x" (by decide)).1
        (by decide)).trans (by decide)
  · exact (c4_commit_override_narrowing none
      (some { commit_hash := some (some "abc") }) "" "abc" (by decide)).2 (by decide)

/-! ## C10 -/

/-- C10: every non-deleted base-event transform result carries
`commit_messages` and `commit_paths` as present lists (empty whenever the ref
is not under the branch namespace), and `commit_message` is the head
commit's message, absent when the payload has no head commit. -/
theorem c10_base_transform_commit_lists (ctx : GithubContext) (p : Payload)
    (hdel : p.deleted = false) :
    ((transformBasicEvent ctx p).commit_messages).isSome = true
    ∧ ((transformBasicEvent ctx p).commit_paths).isSome = true
    ∧ (jsStartsWith ctx.ref "refs/heads/" = false →
        (transformBasicEvent ctx p).commit_messages = some []
        ∧ (transformBasicEvent ctx p).commit_paths = some [])
    ∧ (transformBasicEvent ctx p).commit_message =
        some (p.head_commit.map (fun c => c.message)) := by
  unfold transformBasicEvent
  simp only [hdel, Bool.false_eq_true, if_false, spread]
  by_cases hh : jsStartsWith ctx.ref "refs/heads/" <;> simp [hh]

/-- Witness for C10 at a tag ref: the lists are present and empty and the
head commit's message is carried. -/
theorem c10_base_transform_commit_lists_witness :
    (transformBasicEvent sampleTagCtx samplePushPayload).commit_messages = some []
    ∧ (transformBasicEvent sampleTagCtx samplePushPayload).commit_paths = some []
    ∧ (transformBasicEvent sampleTagCtx samplePushPayload).commit_message =
      some (some "m1") := by
  have h := c10_base_transform_commit_lists sampleTagCtx samplePushPayload rfl
  exact ⟨(h.2.2.1 (by decide)).1, (h.2.2.1 (by decide)).2, h.2.2.2.trans (by decide)⟩

/-! ## Path-reduction helper lemmas for createBuildOptions -/

theorem createBuildOptions_pr_path (i : ActionInputs) (ctx : GithubContext)
    (app : Option BitriseAppDetails) (env : List (String × Option String))
    (p : Payload) (pr : PullRequest)
    (hpay : ctx.payload = some p) (hpr : p.pull_request = some pr)
    (hbo : i.branch_override = "") (hco : i.commit_override = "")
    (h1 : ¬(i.bitrise_workflow = "" ∧ i.bitrise_pipeline = ""))
    (h2 : ¬(i.bitrise_workflow ≠ "" ∧ i.bitrise_pipeline ≠ ""))
    (h3 : ¬(i.bitrise_pipeline ≠ "" ∧ i.listen = true)) :
    createBuildOptions i ctx app env =
      ⟨transformBasicEventFailed p ++ transformPullRequestEventFailed pr,
        mismatchWarning app (transformPullRequestEvent pr),
        finishOptions (transformPullRequestEvent pr) i.bitrise_workflow
          i.bitrise_pipeline i.skip_git_status_report
          (if pr.draft then
            prepareEnvironmentVariables i.env_vars_for_bitrise env ++
              [⟨"GITHUB_PR_IS_DRAFT", "true", false⟩]
          else prepareEnvironmentVariables i.env_vars_for_bitrise env)⟩ := by
  simp only [createBuildOptions]
  rw [if_neg h1, if_neg h2, if_neg h3, hpay]
  rw [if_neg (by simp [hbo, hco])]
  simp only [Option.bind, hpr]

theorem transformPullRequestEvent_merge_branches (pr : PullRequest)
    (hm : pr.mergeable ≠ some false) :
    (transformPullRequestEvent pr).pull_request_unverified_merge_branch =
      some ("pull/" ++ toString pr.number ++ "/merge")
    ∧ ((transformPullRequestEvent pr).pull_request_merge_branch.isSome ↔
        pr.mergeable.isSome) := by
  unfold transformPullRequestEvent
  cases hmg : pr.mergeable with
  | none => simp [hmg, spread]
  | some b =>
    cases b with
    | true => simp [hmg, spread]
    | false => exact absurd hmg hm

/-! ## C2 -/

/-- C2: for a pull-request event with neither override given, the output has
`pull_request_unverified_merge_branch = "pull/<number>/merge"` and
`pull_request_merge_branch` is set iff `mergeable` is not unknown; when
`mergeable` is explicitly `false` the run instead fails with the
`ConfigError` message "Pull Request is not mergeable". -/
theorem c2_pr_merge_branches (i : ActionInputs) (ctx : GithubContext)
    (app : Option BitriseAppDetails) (env : List (String × Option String))
    (p : Payload) (pr : PullRequest) (m : Option Bool) (hm : m ≠ some false)
    (hbo : i.branch_override = "") (hco : i.commit_override = "")
    (h1 : ¬(i.bitrise_workflow = "" ∧ i.bitrise_pipeline = ""))
    (h2 : ¬(i.bitrise_workflow ≠ "" ∧ i.bitrise_pipeline ≠ ""))
    (h3 : ¬(i.bitrise_pipeline ≠ "" ∧ i.listen = true)) :
    ((createBuildOptions i (withPullRequest ctx p { pr with mergeable := m })
        app env).options.pull_request_unverified_merge_branch =
      some ("pull/" ++ toString pr.number ++ "/merge")
    ∧ ((createBuildOptions i (withPullRequest ctx p { pr with mergeable := m })
        app env).options.pull_request_merge_branch.isSome ↔ m.isSome))
    ∧ "Pull Request is not mergeable" ∈
      (createBuildOptions i
        (withPullRequest ctx p { pr with mergeable := some false }) app env).failed := by
  have hrun := createBuildOptions_pr_path i
    (withPullRequest ctx p { pr with mergeable := m }) app env
    { p with pull_request := some { pr with mergeable := m } }
    { pr with mergeable := m } rfl rfl hbo hco h1 h2 h3
  have hrun2 := createBuildOptions_pr_path i
    (withPullRequest ctx p { pr with mergeable := some false }) app env
    { p with pull_request := some { pr with mergeable := some false } }
    { pr with mergeable := some false } rfl rfl hbo hco h1 h2 h3
  have hmrg := transformPullRequestEvent_merge_branches { pr with mergeable := m } hm
  refine ⟨⟨?_, ?_⟩, ?_⟩
  · rw [hrun]
    simpa [finishOptions, finalizeOptions] using hmrg.1
  · rw [hrun]
    simpa [finishOptions, finalizeOptions] using hmrg.2
  · rw [hrun2]
    simp [transformPullRequestEventFailed]

/-- Witness for C2 at a concrete pull request (number 7, mergeable true). -/
theorem c2_pr_merge_branches_witness :
    ((createBuildOptions inputWorkflowOnly
        (withPullRequest (samplePrCtx none) (samplePrPayload none)
          { samplePr none with mergeable := some true })
        none sampleEnv).options.pull_request_unverified_merge_branch =
      some "pull/7/merge")
    ∧ ((createBuildOptions inputWorkflowOnly
        (withPullRequest (samplePrCtx none) (samplePrPayload none)
          { samplePr none with mergeable := some true })
        none sampleEnv).options.pull_request_merge_branch.isSome = true)
    ∧ "Pull Request is not mergeable" ∈
      (createBuildOptions inputWorkflowOnly
        (withPullRequest (samplePrCtx none) (samplePrPayload none)
          { samplePr none with mergeable := some false })
        none sampleEnv).failed := by
  have h := c2_pr_merge_branches inputWorkflowOnly (samplePrCtx none) none sampleEnv
    (samplePrPayload none) (samplePr none) (some true) (by decide) rfl rfl
    (by decide) (by decide) (by decide)
  exact ⟨h.1.1.trans (by decide), by rw [h.1.2]; decide, h.2⟩

theorem createBuildOptions_default_path (i : ActionInputs) (ctx : GithubContext)
    (app : Option BitriseAppDetails) (env : List (String × Option String))
    (p : Payload)
    (hpay : ctx.payload = some p) (hpr : p.pull_request = none)
    (hbo : i.branch_override = "") (hco : i.commit_override = "")
    (h1 : ¬(i.bitrise_workflow = "" ∧ i.bitrise_pipeline = ""))
    (h2 : ¬(i.bitrise_workflow ≠ "" ∧ i.bitrise_pipeline ≠ ""))
    (h3 : ¬(i.bitrise_pipeline ≠ "" ∧ i.listen = true)) :
    createBuildOptions i ctx app env =
      ⟨transformBasicEventFailed p,
        mismatchWarning app (transformBasicEvent ctx p),
        finishOptions (transformBasicEvent ctx p) i.bitrise_workflow
          i.bitrise_pipeline i.skip_git_status_report
          (prepareEnvironmentVariables i.env_vars_for_bitrise env)⟩ := by
  simp only [createBuildOptions]
  rw [if_neg h1, if_neg h2, if_neg h3, hpay]
  rw [if_neg (by simp [hbo, hco])]
  simp only [Option.bind, hpr, Option.map]

theorem transformBasicEvent_heads (ctx : GithubContext) (p : Payload)
    (hdel : p.deleted = false) (hh : jsStartsWith ctx.ref "refs/heads/" = true) :
    (transformBasicEvent ctx p).branch = some (some (jsDrop 11 ctx.ref))
    ∧ (transformBasicEvent ctx p).tag = none := by
  unfold transformBasicEvent
  simp [hdel, hh, spread]

theorem transformBasicEvent_tags (ctx : GithubContext) (p : Payload)
    (hdel : p.deleted = false) (hh : jsStartsWith ctx.ref "refs/heads/" = false)
    (ht : jsStartsWith ctx.ref "refs/tags/" = true) :
    (transformBasicEvent ctx p).tag = some (some (jsDrop 10 ctx.ref))
    ∧ (transformBasicEvent ctx p).branch = none := by
  unfold transformBasicEvent
  simp [hdel, hh, ht, spread]

/-! ## C8 -/

/-- C8: for a push event (no overrides, no pull request), a ref under
`refs/heads/` yields `branch` equal to the ref with that namespace stripped
and no `tag`; a ref under `refs/tags/` yields `tag` with the namespace
stripped and no `branch`. -/
theorem c8_ref_namespace_split (i : ActionInputs) (ctx : GithubContext)
    (app : Option BitriseAppDetails) (env : List (String × Option String))
    (p : Payload) (b t : String)
    (hpay : ctx.payload = some p) (hdel : p.deleted = false)
    (hpr : p.pull_request = none)
    (hbo : i.branch_override = "") (hco : i.commit_override = "")
    (h1 : ¬(i.bitrise_workflow = "" ∧ i.bitrise_pipeline = ""))
    (h2 : ¬(i.bitrise_workflow ≠ "" ∧ i.bitrise_pipeline ≠ ""))
    (h3 : ¬(i.bitrise_pipeline ≠ "" ∧ i.listen = true)) :
    ((createBuildOptions i { ctx with ref := "refs/heads/" ++ b } app env).options.branch =
        some b
      ∧ (createBuildOptions i { ctx with ref := "refs/heads/" ++ b } app env).options.tag =
        none)
    ∧ ((createBuildOptions i { ctx with ref := "refs/tags/" ++ t } app env).options.tag =
        some t
      ∧ (createBuildOptions i { ctx with ref := "refs/tags/" ++ t } app env).options.branch =
        none) := by
  have hrunH := createBuildOptions_default_path i { ctx with ref := "refs/heads/" ++ b }
    app env p hpay hpr hbo hco h1 h2 h3
  have hrunT := createBuildOptions_default_path i { ctx with ref := "refs/tags/" ++ t }
    app env p hpay hpr hbo hco h1 h2 h3
  have hH := transformBasicEvent_heads { ctx with ref := "refs/heads/" ++ b } p hdel
    (jsStartsWith_append "refs/heads/" b)
  have hT := transformBasicEvent_tags { ctx with ref := "refs/tags/" ++ t } p hdel
    (heads_not_starts_tags t) (jsStartsWith_append "refs/tags/" t)
  refine ⟨⟨?_, ?_⟩, ⟨?_, ?_⟩⟩
  · rw [hrunH]
    simp [finishOptions, finalizeOptions, hH.1, jsDrop_heads]
  · rw [hrunH]
    simp [finishOptions, finalizeOptions, hH.2]
  · rw [hrunT]
    simp [finishOptions, finalizeOptions, hT.1, jsDrop_tags]
  · rw [hrunT]
    simp [finishOptions, finalizeOptions, hT.2]

/-- Witness for C8: ref `refs/heads/main` gives branch `main` and no tag;
ref `refs/tags/v1.0` gives tag `v1.0` and no branch. -/
theorem c8_ref_namespace_split_witness :
    ((createBuildOptions inputWorkflowOnly
        { samplePushCtx with ref := "refs/heads/" ++ "main" } none []).options.branch =
      some "main")
    ∧ ((createBuildOptions inputWorkflowOnly
        { samplePushCtx with ref := "refs/heads/" ++ "main" } none []).options.tag = none)
    ∧ ((createBuildOptions inputWorkflowOnly
        { samplePushCtx with ref := "refs/tags/" ++ "v1.0" } none []).options.tag =
      some "v1.0")
    ∧ ((createBuildOptions inputWorkflowOnly
        { samplePushCtx with ref := "refs/tags/" ++ "v1.0" } none []).options.branch =
      none) := by
  have h := c8_ref_namespace_split inputWorkflowOnly samplePushCtx none []
    samplePushPayload "main" "v1.0" rfl rfl rfl rfl rfl
    (by decide) (by decide) (by decide)
  exact ⟨h.1.1, h.1.2, h.2.1, h.2.2⟩

theorem createBuildOptions_ids (i : ActionInputs) (ctx : GithubContext)
    (app : Option BitriseAppDetails) (env : List (String × Option String))
    (h1 : ¬(i.bitrise_workflow = "" ∧ i.bitrise_pipeline = ""))
    (h2 : ¬(i.bitrise_workflow ≠ "" ∧ i.bitrise_pipeline ≠ ""))
    (h3 : ¬(i.bitrise_pipeline ≠ "" ∧ i.listen = true)) :
    (createBuildOptions i ctx app env).failed = [] →
      (createBuildOptions i ctx app env).options.workflow_id =
        (if i.bitrise_workflow ≠ "" then some i.bitrise_workflow else none)
      ∧ (createBuildOptions i ctx app env).options.pipeline_id =
        (if i.bitrise_pipeline ≠ "" then some i.bitrise_pipeline else none) := by
  simp only [createBuildOptions]
  rw [if_neg h1, if_neg h2, if_neg h3]
  split
  · intro _
    exact ⟨rfl, rfl⟩
  · split
    · intro _
      exact ⟨rfl, rfl⟩
    · split
      · intro hf
        simp at hf
      · intro _
        exact ⟨rfl, rfl⟩

/-! ## C7 -/

/-- C7: specifying both a workflow and a pipeline, or neither, fails with a
`ConfigError` before any resolution (the returned record is empty), and a
run with no failure has exactly one of `workflow_id` and `pipeline_id`
set. -/
theorem c7_workflow_pipeline_exclusive (i : ActionInputs) (ctx : GithubContext)
    (app : Option BitriseAppDetails) (env : List (String × Option String)) :
    ((createBuildOptions { i with bitrise_workflow := "", bitrise_pipeline := "" } ctx app env).failed ≠ []
      ∧ (createBuildOptions { i with bitrise_workflow := "", bitrise_pipeline := "" } ctx app env).options = {})
    ∧ (∀ w pl, w ≠ "" → pl ≠ "" →
        (createBuildOptions { i with bitrise_workflow := w, bitrise_pipeline := pl } ctx app env).failed ≠ []
        ∧ (createBuildOptions { i with bitrise_workflow := w, bitrise_pipeline := pl } ctx app env).options = {})
    ∧ ((createBuildOptions i ctx app env).failed = [] →
        (createBuildOptions i ctx app env).options.workflow_id.isSome =
          !(createBuildOptions i ctx app env).options.pipeline_id.isSome) := by
  refine ⟨?_, ?_, ?_⟩
  · constructor
    · simp [createBuildOptions]
    · simp [createBuildOptions]
  · intro w pl hw hpl
    constructor
    · simp only [createBuildOptions]
      rw [if_neg (fun c => hw c.1), if_pos ⟨hw, hpl⟩]
      simp
    · simp only [createBuildOptions]
      rw [if_neg (fun c => hw c.1), if_pos ⟨hw, hpl⟩]
  · intro hf
    have h1 : ¬(i.bitrise_workflow = "" ∧ i.bitrise_pipeline = "") := by
      intro c
      rw [show (createBuildOptions i ctx app env) =
        ⟨["Either bitrise-workflow or bitrise-pipeline must be provided"], [], {}⟩ from by
          simp only [createBuildOptions]; rw [if_pos c]] at hf
      simp at hf
    have h2 : ¬(i.bitrise_workflow ≠ "" ∧ i.bitrise_pipeline ≠ "") := by
      intro c
      rw [show (createBuildOptions i ctx app env) =
        ⟨["Cannot specify both bitrise-workflow and bitrise-pipeline"], [], {}⟩ from by
          simp only [createBuildOptions]; rw [if_neg h1, if_pos c]] at hf
      simp at hf
    have h3 : ¬(i.bitrise_pipeline ≠ "" ∧ i.listen = true) := by
      intro c
      rw [show (createBuildOptions i ctx app env) =
        ⟨["Listen option is not supported with bitrise-pipeline"], [], {}⟩ from by
          simp only [createBuildOptions]; rw [if_neg h1, if_neg h2, if_pos c]] at hf
      simp at hf
    obtain ⟨hwid, hpid⟩ := createBuildOptions_ids i ctx app env h1 h2 h3 hf
    rw [hwid, hpid]
    by_cases hww : i.bitrise_workflow = ""
    · have hpp : i.bitrise_pipeline ≠ "" := fun hp => h1 ⟨hww, hp⟩
      rw [if_neg (fun c => c hww), if_pos hpp]
      rfl
    · have hpp : ¬(i.bitrise_pipeline ≠ "") := fun hp => h2 ⟨hww, hp⟩
      rw [if_pos hww, if_neg hpp]
      rfl

/-- Witness for C7: both-empty and both-set inputs fail with an empty
record; a valid workflow-only input yields exactly one id set. -/
theorem c7_workflow_pipeline_exclusive_witness :
    ((createBuildOptions { inputWorkflowOnly with bitrise_workflow := "", bitrise_pipeline := "" } samplePushCtx none []).failed ≠ []
      ∧ (createBuildOptions { inputWorkflowOnly with bitrise_workflow := "", bitrise_pipeline := "" } samplePushCtx none []).options = {})
    ∧ ((createBuildOptions { inputWorkflowOnly with bitrise_workflow := "a", bitrise_pipeline := "b" } samplePushCtx none []).failed ≠ []
      ∧ (createBuildOptions { inputWorkflowOnly with bitrise_workflow := "a", bitrise_pipeline := "b" } samplePushCtx none []).options = {})
    ∧ (createBuildOptions inputWorkflowOnly samplePushCtx none []).options.workflow_id.isSome =
        !(createBuildOptions inputWorkflowOnly samplePushCtx none []).options.pipeline_id.isSome := by
  have h := c7_workflow_pipeline_exclusive inputWorkflowOnly samplePushCtx none []
  exact ⟨h.1, h.2.1 "a" "b" (by decide) (by decide), h.2.2 (by decide)⟩

theorem map_mapped_to_filter (L : List String) (env : List (String × Option String)) :
    (((env.filter (fun kv => L.contains kv.1)).map
        (fun kv => (⟨kv.1, kv.2.getD "", false⟩ : BitriseEnvironment))).map
      (fun e => e.mapped_to)) =
      (env.map Prod.fst).filter (fun n => L.contains n) := by
  induction env with
  | nil => rfl
  | cons kv tl ih =>
    by_cases h : kv.1 ∈ L <;> simp [List.filter_cons, h] <;> simpa using ih

/-! ## C5 -/

/-- C5: environment passthrough yields, in the environment's encounter order
restricted to the allow-list, exactly one entry per allow-listed name that
exists in the environment, carrying that name's value (`""` if unset) and an
always-false expand flag; allow-listed names absent from the environment are
omitted and non-allow-listed entries are excluded. -/
theorem c5_env_passthrough (raw : String) (env : List (String × Option String))
    (hnd : (env.map Prod.fst).Nodup) :
    ((prepareEnvironmentVariables raw env).map (fun e => e.mapped_to) =
      (env.map Prod.fst).filter (fun n => (envAllowList raw).contains n))
    ∧ (∀ e ∈ prepareEnvironmentVariables raw env,
        e.is_expand = false ∧ (envAllowList raw).contains e.mapped_to = true
        ∧ ∃ v, (e.mapped_to, v) ∈ env ∧ e.value = v.getD "")
    ∧ (∀ n, (envAllowList raw).contains n = true → n ∈ env.map Prod.fst →
        ((prepareEnvironmentVariables raw env).map (fun e => e.mapped_to)).count n = 1)
    ∧ (∀ n, (envAllowList raw).contains n = false →
        ((prepareEnvironmentVariables raw env).map (fun e => e.mapped_to)).count n = 0)
    ∧ (∀ n, n ∉ env.map Prod.fst →
        ((prepareEnvironmentVariables raw env).map (fun e => e.mapped_to)).count n = 0) := by
  have hnames : (prepareEnvironmentVariables raw env).map (fun e => e.mapped_to) =
      (env.map Prod.fst).filter (fun n => (envAllowList raw).contains n) := by
    simp only [prepareEnvironmentVariables]
    exact map_mapped_to_filter (envAllowList raw) env
  refine ⟨hnames, ?_, ?_, ?_, ?_⟩
  · intro e he
    simp only [prepareEnvironmentVariables] at he
    rcases List.mem_map.1 he with ⟨kv, hkv, rfl⟩
    rcases List.mem_filter.1 hkv with ⟨hmem, hcont⟩
    exact ⟨rfl, hcont, kv.2, hmem, rfl⟩
  · intro n hcont hmem
    rw [hnames]
    exact List.count_eq_one_of_mem (hnd.filter _) (List.mem_filter.2 ⟨hmem, hcont⟩)
  · intro n hcont
    rw [hnames]
    refine List.count_eq_zero_of_not_mem (fun hmem => ?_)
    have := (List.mem_filter.1 hmem).2
    rw [hcont] at this
    exact Bool.false_ne_true this
  · intro n hmem
    rw [hnames]
    exact List.count_eq_zero_of_not_mem (fun h => hmem (List.mem_filter.1 h).1)

/-- Witness for C5 at the spec's concrete example: allow-list `A,C` against
entries `A=1`, `B=2` yields exactly the entry for `A`. -/
theorem c5_env_passthrough_witness :
    ((prepareEnvironmentVariables "A,C" sampleEnv).map (fun e => e.mapped_to) = ["A"])
    ∧ ((prepareEnvironmentVariables "A,C" sampleEnv).map (fun e => e.mapped_to)).count "A" = 1
    ∧ ((prepareEnvironmentVariables "A,C" sampleEnv).map (fun e => e.mapped_to)).count "B" = 0
    ∧ ((prepareEnvironmentVariables "A,C" sampleEnv).map (fun e => e.mapped_to)).count "C" = 0 := by
  have h := c5_env_passthrough "A,C" sampleEnv (by decide)
  exact ⟨h.1.trans (by decide), h.2.2.1 "A" (by decide) (by decide),
    h.2.2.2.1 "B" (by decide), h.2.2.2.2 "C" (by decide)⟩

/-! ## Absence of pull-request fields outside the pull-request transform -/

theorem noPullFields_empty : noPullFields {} := by
  simp [noPullFields]

theorem transformBasicEvent_noPullFields (ctx : GithubContext) (p : Payload) :
    noPullFields (transformBasicEvent ctx p) := by
  unfold transformBasicEvent
  by_cases hd : p.deleted = true
  · simp [hd, noPullFields]
  · by_cases hh : jsStartsWith ctx.ref "refs/heads/" = true <;>
      by_cases ht : jsStartsWith ctx.ref "refs/tags/" = true <;>
      simp [hd, hh, ht, spread, noPullFields]

theorem overrideParse_seed_noPullFields (app : Option BitriseAppDetails) (bo : String) :
    noPullFields (overrideParse bo (overrideSeed app)) := by
  unfold overrideParse overrideSeed
  cases happ : appRepoUrl app <;>
    by_cases h1 : jsStartsWith bo "refs/heads/" = true <;>
    by_cases h2 : jsStartsWith bo "refs/tags/" = true <;>
    by_cases h3 : bo ≠ "" <;>
    simp [h1, h2, h3, noPullFields]

theorem spread_noPullFields {a b : OptionsRecord} (ha : noPullFields a)
    (hb : noPullFields b) : noPullFields (spread a b) := by
  obtain ⟨a1, a2, a3, a4, a5, a6, a7, a8, a9, a10, a11, a12⟩ := ha
  obtain ⟨b1, b2, b3, b4, b5, b6, b7, b8, b9, b10, b11, b12⟩ := hb
  simp [spread, noPullFields, a1, a2, a3, a4, a5, a6, a7, a8, a9, a10, a11, a12,
    b1, b2, b3, b4, b5, b6, b7, b8, b9, b10, b11, b12]

theorem overrideCollapse_noPullFields (app : Option BitriseAppDetails)
    (dflt : Option OptionsRecord) (bo : String) {b : OptionsRecord}
    (hb : noPullFields b) (hdflt : ∀ d, dflt = some d → noPullFields d) :
    noPullFields (overrideCollapse app dflt bo b) := by
  unfold overrideCollapse
  split
  · split
    · split
      · refine spread_noPullFields hb ?_
        cases hd : dflt with
        | none => exact noPullFields_empty
        | some d => exact hdflt d hd
      · exact hb
    · exact hb
  · exact hb

theorem overrideNarrow_noPullFields (co : String) (dflt : Option OptionsRecord)
    {b : OptionsRecord} (hb : noPullFields b) :
    noPullFields (overrideNarrow co dflt b) := by
  unfold overrideNarrow
  split
  · simp [noPullFields]
  · exact hb

theorem processOverrides_noPullFields (app : Option BitriseAppDetails)
    (ctx : GithubContext) (bo co : String) :
    noPullFields (processOverrides app (ctx.payload.map (transformBasicEvent ctx)) bo co) := by
  unfold processOverrides
  refine overrideNarrow_noPullFields co _ ?_
  refine overrideCollapse_noPullFields app _ bo (overrideParse_seed_noPullFields app bo) ?_
  intro d hd
  cases hp : ctx.payload with
  | none => rw [hp] at hd; simp at hd
  | some p =>
    rw [hp] at hd
    simp only [Option.map] at hd
    cases hd
    exact transformBasicEvent_noPullFields ctx p

theorem createBuildOptions_override_path (i : ActionInputs) (ctx : GithubContext)
    (app : Option BitriseAppDetails) (env : List (String × Option String))
    (hov : i.branch_override ≠ "" ∨ i.commit_override ≠ "")
    (h1 : ¬(i.bitrise_workflow = "" ∧ i.bitrise_pipeline = ""))
    (h2 : ¬(i.bitrise_workflow ≠ "" ∧ i.bitrise_pipeline ≠ ""))
    (h3 : ¬(i.bitrise_pipeline ≠ "" ∧ i.listen = true)) :
    createBuildOptions i ctx app env =
      ⟨(match ctx.payload with
        | some p => transformBasicEventFailed p
        | none => []),
        processOverridesWarnings app ++ mismatchWarning app
          (processOverrides app (ctx.payload.map (transformBasicEvent ctx))
            i.branch_override i.commit_override),
        finishOptions
          (processOverrides app (ctx.payload.map (transformBasicEvent ctx))
            i.branch_override i.commit_override)
          i.bitrise_workflow i.bitrise_pipeline i.skip_git_status_report
          (prepareEnvironmentVariables i.env_vars_for_bitrise env)⟩ := by
  simp only [createBuildOptions]
  rw [if_neg h1, if_neg h2, if_neg h3, if_pos hov]

/-! ## C6 -/

/-- C6: whenever a branch-or-ref override or a commit override is supplied,
the override transform is applied instead of the base/PR transform: no
pull-request-specific field appears in the output, the environments list is
exactly the passthrough list (no draft entry appended), and, when
validation passes, the returned record is the finish of `processOverrides`. -/
theorem c6_override_precedence (i : ActionInputs) (ctx : GithubContext)
    (app : Option BitriseAppDetails) (env : List (String × Option String))
    (hov : i.branch_override ≠ "" ∨ i.commit_override ≠ "") :
    ((createBuildOptions i ctx app env).options.pull_request_id = none
    ∧ (createBuildOptions i ctx app env).options.pull_request_unverified_merge_branch = none
    ∧ (createBuildOptions i ctx app env).options.pull_request_merge_branch = none
    ∧ (createBuildOptions i ctx app env).options.pull_request_head_branch = none
    ∧ (createBuildOptions i ctx app env).options.pull_request_ready_state = none
    ∧ (createBuildOptions i ctx app env).options.pull_request_author = none
    ∧ (createBuildOptions i ctx app env).options.pull_request_repository_url = none
    ∧ (createBuildOptions i ctx app env).options.head_repository_url = none
    ∧ (createBuildOptions i ctx app env).options.branch_repo_owner = none
    ∧ (createBuildOptions i ctx app env).options.branch_dest = none
    ∧ (createBuildOptions i ctx app env).options.branch_dest_repo_owner = none
    ∧ (createBuildOptions i ctx app env).options.diff_url = none
    ∧ ((createBuildOptions i ctx app env).options.environments = none
      ∨ (createBuildOptions i ctx app env).options.environments =
          some (prepareEnvironmentVariables i.env_vars_for_bitrise env)))
    ∧ (¬(i.bitrise_workflow = "" ∧ i.bitrise_pipeline = "") →
      ¬(i.bitrise_workflow ≠ "" ∧ i.bitrise_pipeline ≠ "") →
      ¬(i.bitrise_pipeline ≠ "" ∧ i.listen = true) →
      (createBuildOptions i ctx app env).options =
        finishOptions
          (processOverrides app (ctx.payload.map (transformBasicEvent ctx))
            i.branch_override i.commit_override)
          i.bitrise_workflow i.bitrise_pipeline i.skip_git_status_report
          (prepareEnvironmentVariables i.env_vars_for_bitrise env)) := by
  by_cases h1 : i.bitrise_workflow = "" ∧ i.bitrise_pipeline = ""
  · have hrun : createBuildOptions i ctx app env =
        ⟨["Either bitrise-workflow or bitrise-pipeline must be provided"], [], {}⟩ := by
      simp only [createBuildOptions]
      rw [if_pos h1]
    rw [hrun]
    exact ⟨⟨rfl, rfl, rfl, rfl, rfl, rfl, rfl, rfl, rfl, rfl, rfl, rfl, Or.inl rfl⟩,
      fun hc _ _ => absurd h1 hc⟩
  · by_cases h2 : i.bitrise_workflow ≠ "" ∧ i.bitrise_pipeline ≠ ""
    · have hrun : createBuildOptions i ctx app env =
          ⟨["Cannot specify both bitrise-workflow and bitrise-pipeline"], [], {}⟩ := by
        simp only [createBuildOptions]
        rw [if_neg h1, if_pos h2]
      rw [hrun]
      exact ⟨⟨rfl, rfl, rfl, rfl, rfl, rfl, rfl, rfl, rfl, rfl, rfl, rfl, Or.inl rfl⟩,
        fun _ hc _ => absurd h2 hc⟩
    · by_cases h3 : i.bitrise_pipeline ≠ "" ∧ i.listen = true
      · have hrun : createBuildOptions i ctx app env =
            ⟨["Listen option is not supported with bitrise-pipeline"], [], {}⟩ := by
          simp only [createBuildOptions]
          rw [if_neg h1, if_neg h2, if_pos h3]
        rw [hrun]
        exact ⟨⟨rfl, rfl, rfl, rfl, rfl, rfl, rfl, rfl, rfl, rfl, rfl, rfl, Or.inl rfl⟩,
          fun _ _ hc => absurd h3 hc⟩
      · have hrun := createBuildOptions_override_path i ctx app env hov h1 h2 h3
        rw [hrun]
        obtain ⟨f1, f2, f3, f4, f5, f6, f7, f8, f9, f10, f11, f12⟩ :=
          processOverrides_noPullFields app ctx i.branch_override i.commit_override
        refine ⟨⟨?_, ?_, ?_, ?_, ?_, ?_, ?_, ?_, ?_, ?_, ?_, ?_, Or.inr rfl⟩,
          fun _ _ _ => rfl⟩ <;>
          simp [finishOptions, finalizeOptions, f1, f2, f3, f4, f5, f6, f7, f8, f9,
            f10, f11, f12]

/-- Witness for C6: with a branch override against a pull-request context,
no pull-request field survives and the environments list is the bare
passthrough list. -/
theorem c6_override_precedence_witness :
    ((createBuildOptions { inputWorkflowOnly with branch_override := "dev" }
        (samplePrCtx (some true)) none sampleEnv).options.pull_request_id = none)
    ∧ ((createBuildOptions { inputWorkflowOnly with branch_override := "dev" }
        (samplePrCtx (some true)) none sampleEnv).options.pull_request_unverified_merge_branch = none)
    ∧ ((createBuildOptions { inputWorkflowOnly with branch_override := "dev" }
        (samplePrCtx (some true)) none sampleEnv).options.head_repository_url = none)
    ∧ ((createBuildOptions { inputWorkflowOnly with branch_override := "dev" }
        (samplePrCtx (some true)) none sampleEnv).options.environments = none
      ∨ (createBuildOptions { inputWorkflowOnly with branch_override := "dev" }
        (samplePrCtx (some true)) none sampleEnv).options.environments =
          some (prepareEnvironmentVariables "" sampleEnv)) := by
  have h := c6_override_precedence { inputWorkflowOnly with branch_override := "dev" }
    (samplePrCtx (some true)) none sampleEnv (Or.inl (by decide))
  exact ⟨h.1.1, h.1.2.1, h.1.2.2.2.2.2.2.2.1, h.1.2.2.2.2.2.2.2.2.2.2.2.2⟩

/-! ## Branch/tag mutual exclusion -/

theorem truthyString_some {x : Option String} (h : truthyString x = true) :
    ∃ s, x = some s ∧ s ≠ "" := by
  cases x with
  | none => simp [truthyString] at h
  | some s => exact ⟨s, rfl, by simpa [truthyString] using h⟩

theorem transformBasicEvent_branch_tag (ctx : GithubContext) (p : Payload) :
    ((transformBasicEvent ctx p).branch = none ∧ (transformBasicEvent ctx p).tag = none)
    ∨ ((∃ s, (transformBasicEvent ctx p).branch = some (some s))
        ∧ (transformBasicEvent ctx p).tag = none)
    ∨ ((transformBasicEvent ctx p).branch = none
        ∧ ∃ s, (transformBasicEvent ctx p).tag = some (some s)) := by
  unfold transformBasicEvent
  by_cases hd : p.deleted = true
  · exact Or.inl (by simp [hd])
  · by_cases hh : jsStartsWith ctx.ref "refs/heads/" = true
    · refine Or.inr (Or.inl ⟨⟨jsDrop 11 ctx.ref, ?_⟩, ?_⟩) <;> simp [hd, hh, spread]
    · by_cases ht : jsStartsWith ctx.ref "refs/tags/" = true
      · refine Or.inr (Or.inr ⟨?_, jsDrop 10 ctx.ref, ?_⟩) <;> simp [hd, hh, ht, spread]
      · refine Or.inl ⟨?_, ?_⟩ <;> simp [hd, hh, ht, spread]

theorem overrideParse_seed_branch_tag (app : Option BitriseAppDetails) (bo : String) :
    (overrideParse bo (overrideSeed app)).tag = none
    ∨ (overrideParse bo (overrideSeed app)).branch = none := by
  unfold overrideParse overrideSeed
  cases appRepoUrl app <;>
    by_cases h1 : jsStartsWith bo "refs/heads/" = true <;>
    by_cases h2 : jsStartsWith bo "refs/tags/" = true <;>
    by_cases h3 : bo ≠ "" <;> simp [h1, h2, h3]

theorem overrideCollapse_branch_tag (app : Option BitriseAppDetails)
    (dflt : Option OptionsRecord) (bo : String) (b : OptionsRecord)
    (hb : b.tag = none ∨ b.branch = none)
    (hdflt : ∀ d, dflt = some d →
      ((d.branch = none ∧ d.tag = none)
        ∨ ((∃ s, d.branch = some (some s)) ∧ d.tag = none)
        ∨ (d.branch = none ∧ ∃ s, d.tag = some (some s)))) :
    (overrideCollapse app dflt bo b).branch.join = none
    ∨ (overrideCollapse app dflt bo b).tag.join = none := by
  have hbj : b.tag.join = none ∨ b.branch.join = none := by
    cases hb with
    | inl h => exact Or.inl (by simp [h])
    | inr h => exact Or.inr (by simp [h])
  unfold overrideCollapse
  split
  · rename_i hcond
    split
    · split
      · -- collapse: spread b (dflt.getD {})
        cases hcond.2 with
        | inl hbr =>
          obtain ⟨s, hsome, hne⟩ := truthyString_some hbr.1
          have hbranch : b.branch = some (some s) := Option.join_eq_some.1 hsome
          have hdb : dflt.bind (fun d => d.branch.join) = some s := hbr.2.symm.trans hsome
          cases hdfe : dflt with
          | none => rw [hdfe] at hdb; simp at hdb
          | some d =>
            rw [hdfe] at hdb
            simp only [Option.bind] at hdb
            have hbt : b.tag = none := by
              cases hb with
              | inl h => exact h
              | inr h => rw [h] at hbranch; exact absurd hbranch (by simp)
            rcases hdflt d hdfe with ⟨hd1, _⟩ | ⟨_, hd2⟩ | ⟨hd1, _⟩
            · rw [hd1] at hdb; simp at hdb
            · refine Or.inr ?_
              simp [spread, Option.getD, hd2, hbt]
            · rw [hd1] at hdb; simp at hdb
        | inr htg =>
          obtain ⟨s, hsome, hne⟩ := truthyString_some htg.1
          have htag : b.tag = some (some s) := Option.join_eq_some.1 hsome
          have hdb : dflt.bind (fun d => d.tag.join) = some s := htg.2.symm.trans hsome
          cases hdfe : dflt with
          | none => rw [hdfe] at hdb; simp at hdb
          | some d =>
            rw [hdfe] at hdb
            simp only [Option.bind] at hdb
            have hbb : b.branch = none := by
              cases hb with
              | inl h => rw [h] at htag; exact absurd htag (by simp)
              | inr h => exact h
            rcases hdflt d hdfe with ⟨_, hd2⟩ | ⟨_, hd2⟩ | ⟨hd1, _⟩
            · rw [hd2] at hdb; simp at hdb
            · rw [hd2] at hdb; simp at hdb
            · refine Or.inl ?_
              simp [spread, Option.getD, hd1, hbb]
      · cases hbj with
        | inl h => exact Or.inr h
        | inr h => exact Or.inl h
    · cases hbj with
      | inl h => exact Or.inr h
      | inr h => exact Or.inl h
  · cases hbj with
    | inl h => exact Or.inr h
    | inr h => exact Or.inl h

theorem overrideNarrow_branch_tag (co : String) (dflt : Option OptionsRecord)
    (b : OptionsRecord) (hb : b.branch.join = none ∨ b.tag.join = none) :
    (overrideNarrow co dflt b).branch.join = none
    ∨ (overrideNarrow co dflt b).tag.join = none := by
  unfold overrideNarrow
  split
  · cases hb with
    | inl h => exact Or.inl h
    | inr h => exact Or.inr h
  · exact hb

theorem processOverrides_branch_tag (app : Option BitriseAppDetails)
    (ctx : GithubContext) (bo co : String) :
    (processOverrides app (ctx.payload.map (transformBasicEvent ctx)) bo co).branch.join = none
    ∨ (processOverrides app (ctx.payload.map (transformBasicEvent ctx)) bo co).tag.join = none := by
  unfold processOverrides
  refine overrideNarrow_branch_tag co _ _ ?_
  refine overrideCollapse_branch_tag app _ bo _ (overrideParse_seed_branch_tag app bo) ?_
  intro d hd
  cases hp : ctx.payload with
  | none => rw [hp] at hd; simp at hd
  | some p =>
    rw [hp] at hd
    simp only [Option.map] at hd
    cases hd
    exact transformBasicEvent_branch_tag ctx p

theorem transformPullRequestEvent_tag (pr : PullRequest) :
    (transformPullRequestEvent pr).tag = none := by
  unfold transformPullRequestEvent
  by_cases hm1 : pr.mergeable.isSome = true <;>
    by_cases hm2 : pr.mergeable = some false <;>
    simp [hm1, hm2, spread]

theorem createBuildOptions_nopayload_path (i : ActionInputs) (ctx : GithubContext)
    (app : Option BitriseAppDetails) (env : List (String × Option String))
    (hpay : ctx.payload = none)
    (hbo : i.branch_override = "") (hco : i.commit_override = "")
    (h1 : ¬(i.bitrise_workflow = "" ∧ i.bitrise_pipeline = ""))
    (h2 : ¬(i.bitrise_workflow ≠ "" ∧ i.bitrise_pipeline ≠ ""))
    (h3 : ¬(i.bitrise_pipeline ≠ "" ∧ i.listen = true)) :
    createBuildOptions i ctx app env = ⟨["No payload found in the context."], [], {}⟩ := by
  simp only [createBuildOptions]
  rw [if_neg h1, if_neg h2, if_neg h3, hpay]
  rw [if_neg (by simp [hbo, hco])]
  simp [Option.bind]

/-! ## C9 -/

/-- C9: for every input the returned record never has both `branch` and
`tag` set: at least one of them is absent. -/
theorem c9_branch_tag_exclusive (i : ActionInputs) (ctx : GithubContext)
    (app : Option BitriseAppDetails) (env : List (String × Option String)) :
    (createBuildOptions i ctx app env).options.branch = none
    ∨ (createBuildOptions i ctx app env).options.tag = none := by
  by_cases h1 : i.bitrise_workflow = "" ∧ i.bitrise_pipeline = ""
  · have hrun : createBuildOptions i ctx app env =
        ⟨["Either bitrise-workflow or bitrise-pipeline must be provided"], [], {}⟩ := by
      simp only [createBuildOptions]
      rw [if_pos h1]
    rw [hrun]
    exact Or.inl rfl
  · by_cases h2 : i.bitrise_workflow ≠ "" ∧ i.bitrise_pipeline ≠ ""
    · have hrun : createBuildOptions i ctx app env =
          ⟨["Cannot specify both bitrise-workflow and bitrise-pipeline"], [], {}⟩ := by
        simp only [createBuildOptions]
        rw [if_neg h1, if_pos h2]
      rw [hrun]
      exact Or.inl rfl
    · by_cases h3 : i.bitrise_pipeline ≠ "" ∧ i.listen = true
      · have hrun : createBuildOptions i ctx app env =
            ⟨["Listen option is not supported with bitrise-pipeline"], [], {}⟩ := by
          simp only [createBuildOptions]
          rw [if_neg h1, if_neg h2, if_pos h3]
        rw [hrun]
        exact Or.inl rfl
      · by_cases hov : i.branch_override ≠ "" ∨ i.commit_override ≠ ""
        · rw [createBuildOptions_override_path i ctx app env hov h1 h2 h3]
          simpa [finishOptions, finalizeOptions] using
            processOverrides_branch_tag app ctx i.branch_override i.commit_override
        · simp only [not_or, ne_eq, not_not] at hov
          obtain ⟨hbo, hco⟩ := hov
          cases hpay : ctx.payload with
          | none =>
            rw [createBuildOptions_nopayload_path i ctx app env hpay hbo hco h1 h2 h3]
            exact Or.inl rfl
          | some p =>
            cases hpr : p.pull_request with
            | some pr =>
              rw [createBuildOptions_pr_path i ctx app env p pr hpay hpr hbo hco h1 h2 h3]
              refine Or.inr ?_
              simp [finishOptions, finalizeOptions, transformPullRequestEvent_tag pr]
            | none =>
              rw [createBuildOptions_default_path i ctx app env p hpay hpr hbo hco h1 h2 h3]
              rcases transformBasicEvent_branch_tag ctx p with ⟨hb, _⟩ | ⟨_, ht⟩ | ⟨hb, _⟩
              · exact Or.inl (by simp [finishOptions, finalizeOptions, hb])
              · exact Or.inr (by simp [finishOptions, finalizeOptions, ht])
              · exact Or.inl (by simp [finishOptions, finalizeOptions, hb])

/-! ## Collapse-to-default (C3) -/

theorem orElse_none_right {α : Type} (x : Option α) : (x <|> none) = x := by
  cases x <;> rfl

theorem some_orElse_left {α : Type} (a : α) (x : Option α) : ((some a) <|> x) = some a := rfl

theorem overrideParse_seed_commit_fields (app : Option BitriseAppDetails) (bo : String) :
    (overrideParse bo (overrideSeed app)).commit_hash = none
    ∧ (overrideParse bo (overrideSeed app)).commit_message = none
    ∧ (overrideParse bo (overrideSeed app)).commit_messages = none
    ∧ (overrideParse bo (overrideSeed app)).commit_paths = none := by
  unfold overrideParse overrideSeed
  cases appRepoUrl app <;>
    by_cases h1 : jsStartsWith bo "refs/heads/" = true <;>
    by_cases h2 : jsStartsWith bo "refs/tags/" = true <;>
    by_cases h3 : bo ≠ "" <;> simp [h1, h2, h3]

theorem transformBasicEvent_core_fields (ctx : GithubContext) (p : Payload)
    (hdel : p.deleted = false) :
    (transformBasicEvent ctx p).commit_hash = some (some ctx.sha)
    ∧ (transformBasicEvent ctx p).commit_message =
        some (p.head_commit.map (fun c => c.message))
    ∧ ((transformBasicEvent ctx p).commit_messages).isSome = true
    ∧ ((transformBasicEvent ctx p).commit_paths).isSome = true
    ∧ (transformBasicEvent ctx p).base_repository_url =
        some (getRepositoryURL p.repository) := by
  unfold transformBasicEvent
  by_cases hh : jsStartsWith ctx.ref "refs/heads/" = true <;>
    by_cases ht : jsStartsWith ctx.ref "refs/tags/" = true <;>
    simp [hdel, hh, ht, spread]

/-- C3 counterexample: the branch override resolves to the base branch, the
app repository URL refers to the same remote, yet because a differing commit
override is also supplied the output is narrowed, not the full base-event
transform result (`commit_messages` is dropped). -/
theorem c3_counterexample_commit_override :
    (truthyString ((overrideParse "main" (overrideSeed (some sampleApp))).branch.join) = true
      ∧ (overrideParse "main" (overrideSeed (some sampleApp))).branch.join =
          (transformBasicEvent samplePushCtx samplePushPayload).branch.join)
    ∧ appRepoUrl (some sampleApp) = some "https://github.com/o/r"
    ∧ urlsReferTheSameGitHubRepo "https://github.com/o/r"
        ((transformBasicEvent samplePushCtx samplePushPayload).base_repository_url.join) = true
    ∧ (transformBasicEvent samplePushCtx samplePushPayload).commit_messages = some ["m1"]
    ∧ processOverrides (some sampleApp)
        (some (transformBasicEvent samplePushCtx samplePushPayload)) "main" "zzz" ≠
        transformBasicEvent samplePushCtx samplePushPayload
    ∧ (processOverrides (some sampleApp)
        (some (transformBasicEvent samplePushCtx samplePushPayload)) "main" "zzz").commit_messages
        = none := by
  decide

/-- C3 (amended): when a branch override is supplied that resolves to the
same branch or tag as the base-event transform, the known app repository URL
is present and refers to the same remote as the base event's repository URL,
AND no commit override differing from the base commit hash is supplied, the
override result equals the full base-event transform result; and the
collapse-to-default never occurs when the app repository URL is absent. -/
theorem c3_collapse_to_default (app : Option BitriseAppDetails) (ctx : GithubContext)
    (p : Payload) (bo co u : String)
    (hbo : bo ≠ "")
    (hmatch : (truthyString ((overrideParse bo (overrideSeed app)).branch.join) = true
        ∧ (overrideParse bo (overrideSeed app)).branch.join =
            (transformBasicEvent ctx p).branch.join)
      ∨ (truthyString ((overrideParse bo (overrideSeed app)).tag.join) = true
        ∧ (overrideParse bo (overrideSeed app)).tag.join =
            (transformBasicEvent ctx p).tag.join))
    (happ : appRepoUrl app = some u)
    (hurl : urlsReferTheSameGitHubRepo u
        ((transformBasicEvent ctx p).base_repository_url.join) = true)
    (hco : co = "" ∨ some co = (transformBasicEvent ctx p).commit_hash.join) :
    processOverrides app (some (transformBasicEvent ctx p)) bo co =
      transformBasicEvent ctx p
    ∧ (∀ (app2 : Option BitriseAppDetails) (dflt2 : Option OptionsRecord)
        (bo2 : String) (b2 : OptionsRecord), appRepoUrl app2 = none →
        overrideCollapse app2 dflt2 bo2 b2 = b2) := by
  have hskip : ∀ (app2 : Option BitriseAppDetails) (dflt2 : Option OptionsRecord)
      (bo2 : String) (b2 : OptionsRecord), appRepoUrl app2 = none →
      overrideCollapse app2 dflt2 bo2 b2 = b2 := by
    intro app2 dflt2 bo2 b2 hnone
    unfold overrideCollapse
    split
    · rw [hnone]
    · rfl
  have hdel : p.deleted = false := by
    cases hpd : p.deleted
    · rfl
    · exfalso
      have hempty : transformBasicEvent ctx p = {} := by
        unfold transformBasicEvent
        rw [hpd]
        simp
      rw [hempty] at hmatch
      rcases hmatch with ⟨ht, he⟩ | ⟨ht, he⟩ <;> rw [he] at ht <;>
        simp [truthyString] at ht
  obtain ⟨hch, hcm, hcms, hcps⟩ := overrideParse_seed_commit_fields app bo
  obtain ⟨hb1, hb2, hb3, hb4, hb5, hb6, hb7, hb8, hb9, hb10, hb11, hb12⟩ :=
    overrideParse_seed_noPullFields app bo
  obtain ⟨hdch, hdcm, hdcms, hdcps, hdbase⟩ := transformBasicEvent_core_fields ctx p hdel
  have hspread : spread (overrideParse bo (overrideSeed app))
      (transformBasicEvent ctx p) = transformBasicEvent ctx p := by
    rcases hmatch with ⟨hty, heq⟩ | ⟨hty, heq⟩
    · obtain ⟨s, hsme, hne⟩ := truthyString_some hty
      have hbb : (overrideParse bo (overrideSeed app)).branch = some (some s) :=
        Option.join_eq_some.1 hsme
      have hdb : (transformBasicEvent ctx p).branch = some (some s) :=
        Option.join_eq_some.1 (heq.symm.trans hsme)
      have hbt : (overrideParse bo (overrideSeed app)).tag = none := by
        rcases overrideParse_seed_branch_tag app bo with h | h
        · exact h
        · rw [h] at hbb
          exact absurd hbb (by simp)
      ext : 1 <;>
        simp [spread, hch, hcm, hcms, hcps, hb1, hb2, hb3, hb4, hb5, hb6, hb7,
          hb8, hb9, hb10, hb11, hb12, hbt, hdb, hdbase, orElse_none_right,
          some_orElse_left]
    · obtain ⟨s, hsme, hne⟩ := truthyString_some hty
      have hbt : (overrideParse bo (overrideSeed app)).tag = some (some s) :=
        Option.join_eq_some.1 hsme
      have hdt : (transformBasicEvent ctx p).tag = some (some s) :=
        Option.join_eq_some.1 (heq.symm.trans hsme)
      have hbb : (overrideParse bo (overrideSeed app)).branch = none := by
        rcases overrideParse_seed_branch_tag app bo with h | h
        · rw [h] at hbt
          exact absurd hbt (by simp)
        · exact h
      ext : 1 <;>
        simp [spread, hch, hcm, hcms, hcps, hb1, hb2, hb3, hb4, hb5, hb6, hb7,
          hb8, hb9, hb10, hb11, hb12, hbb, hdt, hdbase, orElse_none_right,
          some_orElse_left]
  have hcollapse : overrideCollapse app (some (transformBasicEvent ctx p)) bo
      (overrideParse bo (overrideSeed app)) = transformBasicEvent ctx p := by
    unfold overrideCollapse
    rw [if_pos ⟨hbo, hmatch⟩, happ]
    simp only [Option.bind]
    rw [if_pos hurl]
    exact hspread
  have hnarrow : overrideNarrow co (some (transformBasicEvent ctx p))
      (transformBasicEvent ctx p) = transformBasicEvent ctx p := by
    unfold overrideNarrow
    rw [if_neg]
    rcases hco with rfl | heq
    · exact fun c => c.1 rfl
    · exact fun c => c.2 heq
  refine ⟨?_, hskip⟩
  unfold processOverrides
  rw [hcollapse]
  exact hnarrow

/-- Witness for C3 (amended) at a concrete push event with a matching branch
override (no commit override) and identical repositories, and for the
skipped collapse without app metadata. -/
theorem c3_collapse_to_default_witness :
    processOverrides (some sampleApp)
        (some (transformBasicEvent samplePushCtx samplePushPayload)) "main" "" =
      transformBasicEvent samplePushCtx samplePushPayload
    ∧ overrideCollapse none
        (some (transformBasicEvent samplePushCtx samplePushPayload)) "main"
        (overrideParse "main" (overrideSeed none)) =
      overrideParse "main" (overrideSeed none) := by
  have h := c3_collapse_to_default (some sampleApp) samplePushCtx samplePushPayload
    "main" "" "https://github.com/o/r" (by decide)
    (Or.inl ⟨by decide, by decide⟩) (by decide) (by decide) (Or.inl rfl)
  exact ⟨h.1, h.2 none _ "main" _ (by decide)⟩
